import Mathlib

/-!
Verification of the corgi bit-vector org-chart engine.

This file shallowly embeds the Solidity contracts `MultiSignable` /
`OrgChart` (unnamed part_002), `BitVectorOrgChart.sol` and
`DynamicBitVectorOrgChart` (unnamed part_001) into Lean.

Modelling conventions:
* `uint256` values are `Nat`; wrap-around is applied explicitly (`% 2 ^ 256`)
  at the few places where Solidity would wrap (unchecked shifts); checked
  arithmetic that would revert on under/overflow is modelled with the
  `Err.panic` error.
* Solidity `mapping`s are total functions `Nat → Nat` (default value 0),
  updated with `Function.update`.
* `keccak256` over ABI-encoded 32-byte words is modelled as an injective
  function `keccak : List Nat → Nat` (the standard collision-free
  idealisation of a cryptographic hash); the fixed public constants
  (type hashes such as `RULE_HASH`) are modelled as distinct numeric tags.
* `ecrecover` is an abstract parameter of the environment `Env`, as are the
  block hashes used by the base-block freshness check.
* Reverts are modelled by `Except Err`; a reverted operation leaves the
  state unchanged (`applyOp`).
-/

/-- Largest `uint256` value, `type(uint256).max` in Solidity. -/
def UMAX : Nat := 2 ^ 256 - 1

/-- `LOOK_BACK_LENGTH` from `OrgChart`. -/
def LOOK_BACK_LENGTH : Nat := 3

/-- `MAX_NUM_SIGNERS` from `OrgChart`. -/
def MAX_NUM_SIGNERS : Nat := 100

/-- `MAX_NUM_RULES` from `DynamicBitVectorOrgChart`. -/
def MAX_NUM_RULES : Nat := 10

/-- `ATOM_FLAG_STRICT = bytes32(uint256(1) << 248)`. -/
def ATOM_FLAG_STRICT : Nat := 1 <<< 248

/-- `ATOM_FLAG_REL_QTY = bytes32(uint256(2) << 248)`. -/
def ATOM_FLAG_REL_QTY : Nat := 2 <<< 248

/-- Numeric tag standing for the constant `RULE_HASH`
(`keccak256 of the Rule type descriptor`). -/
def RULE_HASH : Nat := 101

/-- Numeric tag standing for the constant `GRANT_HASH` (`keccak256 of grant`). -/
def GRANT_HASH : Nat := 102

/-- Numeric tag standing for the constant `REVOKE_HASH` (`keccak256 of revoke`). -/
def REVOKE_HASH : Nat := 103

/-- Numeric tag standing for the constant `ADMIN_HASH` (`keccak256 of admin`). -/
def ADMIN_HASH : Nat := 104

/-- Numeric tag standing for `USER_MGT_REQ_HASH`. -/
def USER_MGT_REQ_HASH : Nat := 105

/-- Numeric tag standing for `ADD_ROLE_REQ_HASH`. -/
def ADD_ROLE_REQ_HASH : Nat := 106

/-- Numeric tag standing for `REMOVE_ROLE_REQ_HASH`. -/
def REMOVE_ROLE_REQ_HASH : Nat := 107

/-- Numeric tag standing for the packed-encoding prefix `\x19\x01`. -/
def EIP191_TAG : Nat := 108

/-- Numeric tag standing for the prefix `\x19Ethereum Signed Message:\n32`. -/
def ETH_MSG_TAG : Nat := 109

/-- Collision-free model of `keccak256` over a sequence of 32-byte words
(the ABI encoding of the arguments).  Injectivity is the idealisation of
collision resistance. -/
def keccak : List Nat → Nat
  | [] => 0
  | x :: xs => Nat.pair x (keccak xs) + 1

/-- ECDSA signature, struct `Signature` from `MultiSignable`. -/
structure Signature where
  v : Nat
  r : Nat
  s : Nat
deriving DecidableEq, Repr

/-- Struct `SignedApproval` from `OrgChart`. -/
structure SignedApproval where
  sig : List Signature
  atoms : List Nat
  assignment : List Nat
  selfSignRequired : Bool
  baseBlockHash : Nat
deriving DecidableEq, Repr

/-- Struct `RoleDef` from `DynamicOrgChart`. -/
structure RoleDef where
  roleId : Nat
  roleFlag : Nat
  seniorFlags : Nat
  juniorFlags : Nat
  ruleHashes : List Nat
deriving DecidableEq, Repr

/-- The mutable contract state: all storage variables of
`BitVectorOrgChart` plus those added by `DynamicBitVectorOrgChart`. -/
structure ChartState where
  roleId2Flag : Nat → Nat
  roleFlag2Mask : Nat → Nat
  user2Roles : Nat → Nat
  ruleHashToRoleFlags : Nat → Nat
  roleIdToNOAssignments : Nat → Nat
  activeRoleFlags : Nat
  roleIdx2Flag : Nat → Nat
  roleFlag2JuniorMask : Nat → Nat
  numOfActiveRoles : Nat
  freeRoleFlags : Nat

/-- Blockchain environment: abstract `ecrecover`, the block-hash oracle used
by `_isValidBaseBlock`, and the per-deployment `DOMAIN_SEPARATOR`. -/
structure Env where
  ecrecover : Nat → Signature → Nat
  blockhash : Nat → Nat
  blockNumber : Nat
  domainSeparator : Nat

/-- Abstract revert reasons.  Each constructor corresponds to one `require`
message (or a checked-arithmetic panic) in the contracts. -/
inductive Err where
  | staleBaseBlock
  | tooManySigners
  | invalidArguments
  | unknownRole
  | invalidRule
  | invalidAdminRule
  | unorderedSigners
  | missingSelfSign
  | unexpectedSelfSign
  | invalidAssignment
  | permissionDenied
  | notEnoughSigners
  | cycleDetected
  | roleIdTaken
  | roleFlagTaken
  | malformedRoleFlag
  | malformedRoleId
  | seniorsMissing
  | juniorsMissing
  | tooManyRules
  | selfSignNotAllowed
  | panic
deriving DecidableEq, Repr

instance decEqExceptErr {α : Type} [DecidableEq α] :
    DecidableEq (Except Err α) := fun a b =>
  match a, b with
  | .ok x, .ok y =>
    if h : x = y then isTrue (by rw [h])
    else isFalse (fun he => h (Except.ok.inj he))
  | .error e, .error f =>
    if h : e = f then isTrue (by rw [h])
    else isFalse (fun he => h (Except.error.inj he))
  | .ok _, .error _ => isFalse (fun he => Except.noConfusion he)
  | .error _, .ok _ => isFalse (fun he => Except.noConfusion he)

/-- Loop of `_getPure` (`BitVectorOrgChart._getPure`): binary search for a
set bit.  The Solidity `while (shift > 0)` loop halves `shift` each round,
so at most 8 iterations happen from the initial `shift = 128`; the `fuel`
parameter is 8 at the entry point, which makes the recursion structural
without changing the computed value. -/
def _getPureLoop (mask : Nat) : Nat → Nat → Nat → Nat
  | 0, _, _ => 0
  | fuel + 1, piv, shift =>
    if shift = 0 then 0
    else if piv &&& mask ≠ 0 then piv
    else _getPureLoop mask fuel
      (if mask < piv then piv >>> (shift / 2) else piv <<< (shift / 2)) (shift / 2)

/-- `BitVectorOrgChart._getPure`: extract some single set bit of `mask`. -/
def _getPure (mask : Nat) : Nat :=
  if mask = 0 then 0
  else if mask &&& (mask - 1) = 0 then mask
  else _getPureLoop mask 8 (1 <<< 128) 128

/-- Loop of `_buildStructureMask`: repeatedly extract a set bit with
`_getPure`, OR the corresponding structure mask, and clear the bit.  Any
`uint256` has at most 256 set bits, so fuel 256 at the entry point makes
the recursion structural without changing the computed value. -/
def _buildStructureMaskAux (rf2m : Nat → Nat) : Nat → Nat → Nat
  | 0, _ => 0
  | fuel + 1, roleFlags =>
    if roleFlags = 0 then 0
    else
      rf2m (_getPure roleFlags) |||
        _buildStructureMaskAux rf2m fuel (roleFlags ^^^ _getPure roleFlags)

/-- `BitVectorOrgChart._buildStructureMask`: OR of `roleFlag2Mask` over all
set bits of `roleFlags`. -/
def _buildStructureMask (rf2m : Nat → Nat) (roleFlags : Nat) : Nat :=
  _buildStructureMaskAux rf2m 256 roleFlags

/-- `BitVectorOrgChart.hasRole`: role check honouring inheritance.
Reverts with `UnknownRole` when the role id is not registered. -/
def hasRole (st : ChartState) (user : Nat) (roleId : Nat) : Except Err Bool :=
  let requiredRoleFlag := st.roleId2Flag roleId
  let userRoleFlags := st.user2Roles user &&& st.activeRoleFlags
  if requiredRoleFlag = 0 then .error .unknownRole
  else if userRoleFlags &&& requiredRoleFlag = requiredRoleFlag then .ok true
  else if userRoleFlags = 0 then .ok false
  else
    .ok (_buildStructureMask st.roleFlag2Mask userRoleFlags &&& requiredRoleFlag
      == requiredRoleFlag)

/-- `BitVectorOrgChart.strictlyHasRole`: direct-assignment role check. -/
def strictlyHasRole (st : ChartState) (user : Nat) (roleId : Nat) : Except Err Bool :=
  let requiredRoleFlag := st.roleId2Flag roleId
  let userRoleFlags := st.user2Roles user &&& st.activeRoleFlags
  if requiredRoleFlag = 0 then .error .unknownRole
  else .ok (userRoleFlags &&& requiredRoleFlag == requiredRoleFlag)

/-- `BitVectorOrgChart._computeRuleHash`:
`keccak256(abi.encode(RULE_HASH, action, approval.selfSignRequired, keccak256(abi.encode(approval.atoms))))`.
Note that the atoms are hashed exactly in the order supplied by the caller;
no sorting happens on-chain. -/
def _computeRuleHash (approval : SignedApproval) (action : Nat) : Nat :=
  keccak [RULE_HASH, action, if approval.selfSignRequired then 1 else 0,
    keccak approval.atoms]

/-- `BitVectorOrgChart._wrapAsEthSignedMessage`: EIP-191 style wrapping with
the domain separator. -/
def _wrapAsEthSignedMessage (env : Env) (txHash : Nat) : Nat :=
  keccak [ETH_MSG_TAG, keccak [EIP191_TAG, env.domainSeparator, txHash]]

/-- `BitVectorOrgChart._computeUserManagementReqHash`. -/
def _computeUserManagementReqHash (env : Env) (nominee : Nat) (action : Nat)
    (roleId : Nat) (baseBlockHash : Nat) : Nat :=
  _wrapAsEthSignedMessage env
    (keccak [USER_MGT_REQ_HASH, nominee, action, roleId, baseBlockHash])

/-- Loop of `MultiSignable.getSigners`: recover each signer, enforce a
strictly ascending signer order, and detect a signature by the nominee. -/
def getSignersAux (env : Env) (targetHash : Nat) (nominee : Nat) :
    List Signature → Nat → Bool → List Nat → Except Err (Bool × List Nat)
  | [], _, selfSigned, signers => .ok (selfSigned, signers.reverse)
  | sg :: rest, lastAdd, selfSigned, signers =>
    let recovered := env.ecrecover targetHash sg
    if lastAdd < recovered then
      getSignersAux env targetHash nominee rest recovered
        (selfSigned || recovered == nominee) (recovered :: signers)
    else .error .unorderedSigners

/-- `MultiSignable.getSigners`. -/
def getSigners (env : Env) (sig : List Signature) (nominee : Nat)
    (targetHash : Nat) : Except Err (Bool × List Nat) :=
  getSignersAux env targetHash nominee sig 0 false []

/-- `OrgChart._isValidBaseBlock`: the given hash occurs among the previous
`LOOK_BACK_LENGTH` block hashes. -/
def _isValidBaseBlock (env : Env) (baseBlockHash : Nat) : Bool :=
  (List.range LOOK_BACK_LENGTH).any fun i =>
    env.blockhash (env.blockNumber - (i + 1)) == baseBlockHash

/-- Modifier `OrgChart.onlyValidApprovals`.  The third `require` of the
source compares `approval.sig.length` with itself (instead of with
`approval.assignment.length`), which is reproduced literally here. -/
def onlyValidApprovals (env : Env) (approval : SignedApproval) : Except Err Unit :=
  if ¬ _isValidBaseBlock env approval.baseBlockHash then .error .staleBaseBlock
  else if ¬ (approval.sig.length ≤ MAX_NUM_SIGNERS) then .error .tooManySigners
  else if ¬ (approval.sig.length = approval.sig.length) then .error .invalidArguments
  else .ok ()

/-- Mask `~(uint256(0xffff) << 240)` selecting the low 30 bytes of an atom. -/
def ROLE_ID_MASK : Nat := 2 ^ 240 - 1

/-- First loop of `_requireRuleFulfillment`: check every assigned signer and
count the signatures per atom.  The loop index is a `uint8`; completing the
body at index 255 makes the `i++` of the `for` loop overflow, which panics
under Solidity 0.8 checked arithmetic. -/
def fulfillLoop1 (st : ChartState) (nominee : Nat) (atoms : List Nat) :
    List Nat → List Nat → Nat → (Nat → Nat) → Except Err (Nat → Nat)
  | [], _, _, cnt => .ok cnt
  | _ :: _, [], _, _ => .error .panic
  | ai :: arest, sg :: srest, i, cnt =>
    if sg = nominee then
      if i = 255 then .error .panic
      else fulfillLoop1 st nominee atoms arest srest (i + 1) cnt
    else if atoms.length ≤ ai then .error .invalidAssignment
    else
      let atom := atoms.getD ai 0
      match
        (if atom &&& ATOM_FLAG_STRICT = ATOM_FLAG_STRICT then
          strictlyHasRole st sg (atom &&& ROLE_ID_MASK)
        else hasRole st sg (atom &&& ROLE_ID_MASK)) with
      | .error e => .error e
      | .ok false => .error .permissionDenied
      | .ok true =>
        if i = 255 then .error .panic
        else
          fulfillLoop1 st nominee atoms arest srest (i + 1)
            (Function.update cnt ai (cnt ai + 1))

/-- `BitVectorOrgChart._getAbsNumberOfRequiredSigners`. -/
def _getAbsNumberOfRequiredSigners (base : Nat) (perc : Nat) : Nat :=
  let req := base * perc
  let req := req / 100 + (if req % 100 > 0 then 1 else 0)
  if req > MAX_NUM_SIGNERS then MAX_NUM_SIGNERS
  else if req < 1 then 1
  else req

/-- Second loop of `_requireRuleFulfillment`: check the per-atom quota.
Same `uint8` loop-counter overflow behaviour as `fulfillLoop1`. -/
def fulfillLoop2 (st : ChartState) (cnt : Nat → Nat) :
    List Nat → Nat → Except Err Unit
  | [], _ => .ok ()
  | atom :: rest, i =>
    let qty := (atom >>> 240) &&& 0xff
    let role := ((atom <<< 16) % 2 ^ 256) >>> 16
    let qty :=
      if atom &&& ATOM_FLAG_REL_QTY = ATOM_FLAG_REL_QTY then
        _getAbsNumberOfRequiredSigners (st.roleIdToNOAssignments role) qty
      else qty
    if cnt i < qty then .error .notEnoughSigners
    else if i = 255 then .error .panic
    else fulfillLoop2 st cnt rest (i + 1)

/-- `BitVectorOrgChart._requireRuleFulfillment`. -/
def _requireRuleFulfillment (st : ChartState) (nominee : Nat)
    (signers : List Nat) (atoms : List Nat) (assignment : List Nat) :
    Except Err Unit :=
  match fulfillLoop1 st nominee atoms assignment signers 0 (fun _ => 0) with
  | .error e => .error e
  | .ok cnt => fulfillLoop2 st cnt atoms 0

/-- `BitVectorOrgChart._requireValidRequest` (grant/revoke pipeline). -/
def _requireValidRequest (env : Env) (st : ChartState)
    (approval : SignedApproval) (action : Nat) (nominee : Nat)
    (roleId : Nat) : Except Err Unit :=
  let roleFlag := st.roleId2Flag roleId
  if roleFlag = 0 then .error .unknownRole
  else
    let ruleHash := _computeRuleHash approval action
    if ¬ (st.ruleHashToRoleFlags ruleHash &&& roleFlag = roleFlag) then
      .error .invalidRule
    else
      match getSigners env approval.sig nominee
        (_computeUserManagementReqHash env nominee action roleId
          approval.baseBlockHash) with
      | .error e => .error e
      | .ok (selfSigned, signers) =>
        if ¬ (selfSigned = approval.selfSignRequired) then
          .error (if approval.selfSignRequired then .missingSelfSign
            else .unexpectedSelfSign)
        else _requireRuleFulfillment st nominee signers approval.atoms
          approval.assignment

/-- `BitVectorOrgChart.grantRole` (with the `onlyValidApprovals` modifier). -/
def grantRole (env : Env) (st : ChartState) (approval : SignedApproval)
    (nominee : Nat) (roleId : Nat) : Except Err ChartState :=
  match onlyValidApprovals env approval with
  | .error e => .error e
  | .ok () =>
    match _requireValidRequest env st approval GRANT_HASH nominee roleId with
    | .error e => .error e
    | .ok () =>
      let roleFlag := st.roleId2Flag roleId
      if st.user2Roles nominee &&& roleFlag = 0 then
        .ok { st with
          user2Roles :=
            Function.update st.user2Roles nominee
              (st.user2Roles nominee ||| roleFlag),
          roleIdToNOAssignments :=
            Function.update st.roleIdToNOAssignments roleId
              (st.roleIdToNOAssignments roleId + 1) }
      else .ok st

/-- `BitVectorOrgChart.revokeRole` (with the `onlyValidApprovals` modifier).
The `roleIdToNOAssignments[roleId]--` is checked arithmetic: it panics when
the counter is 0. -/
def revokeRole (env : Env) (st : ChartState) (approval : SignedApproval)
    (nominee : Nat) (roleId : Nat) : Except Err ChartState :=
  match onlyValidApprovals env approval with
  | .error e => .error e
  | .ok () =>
    match _requireValidRequest env st approval REVOKE_HASH nominee roleId with
    | .error e => .error e
    | .ok () =>
      let roleFlag := st.roleId2Flag roleId
      if st.user2Roles nominee &&& roleFlag = roleFlag then
        if st.roleIdToNOAssignments roleId = 0 then .error .panic
        else
          .ok { st with
            user2Roles :=
              Function.update st.user2Roles nominee
                (st.user2Roles nominee &&& (UMAX ^^^ roleFlag)),
            roleIdToNOAssignments :=
              Function.update st.roleIdToNOAssignments roleId
                (st.roleIdToNOAssignments roleId - 1) }
      else .ok st

/-- `DynamicBitVectorOrgChart._requireValidRoleDef`.  Note that
`roleFlag - 1` under Solidity 0.8 checked arithmetic panics when
`roleFlag = 0`, and that the senior/junior existence checks are against
`~freeRoleFlags`, not against `activeRoleFlags`. -/
def _requireValidRoleDef (st : ChartState) (roleDef : RoleDef) : Except Err Unit :=
  if roleDef.roleFlag = 0 then .error .panic
  else if ¬ (roleDef.roleFlag &&& (roleDef.roleFlag - 1) = 0) then
    .error .malformedRoleFlag
  else if roleDef.roleFlag &&& st.freeRoleFlags = 0 then .error .roleFlagTaken
  else if ¬ (((roleDef.roleId <<< 16) % 2 ^ 256) >>> 16 = roleDef.roleId) then
    .error .malformedRoleId
  else if ¬ (st.roleId2Flag roleDef.roleId = 0) then .error .roleIdTaken
  else if ¬ (roleDef.seniorFlags &&& (UMAX ^^^ st.freeRoleFlags) = roleDef.seniorFlags) then
    .error .seniorsMissing
  else if ¬ (roleDef.juniorFlags &&& (UMAX ^^^ st.freeRoleFlags) = roleDef.juniorFlags) then
    .error .juniorsMissing
  else if ¬ (roleDef.ruleHashes.length < MAX_NUM_RULES) then .error .tooManyRules
  else .ok ()

/-- `DynamicBitVectorOrgChart._computeAddRoleReqHash`. -/
def _computeAddRoleReqHash (env : Env) (roleDef : RoleDef)
    (baseBlockHash : Nat) : Nat :=
  _wrapAsEthSignedMessage env
    (keccak [ADD_ROLE_REQ_HASH, roleDef.roleId, roleDef.roleFlag,
      roleDef.seniorFlags, roleDef.juniorFlags, keccak roleDef.ruleHashes,
      baseBlockHash])

/-- `DynamicBitVectorOrgChart._computeRemoveRoleReqHash`. -/
def _computeRemoveRoleReqHash (env : Env) (roleId : Nat)
    (baseBlockHash : Nat) : Nat :=
  _wrapAsEthSignedMessage env
    (keccak [REMOVE_ROLE_REQ_HASH, roleId, baseBlockHash])

/-- `DynamicBitVectorOrgChart._requireValidAdminRequest`.  Observe that,
unlike the grant/revoke path, this pipeline contains no base-block
freshness check and no bound on the number of signatures. -/
def _requireValidAdminRequest (env : Env) (st : ChartState)
    (approval : SignedApproval) (targetHash : Nat) : Except Err Unit :=
  let ruleHash := _computeRuleHash approval ADMIN_HASH
  if ¬ (st.ruleHashToRoleFlags ruleHash = UMAX) then .error .invalidAdminRule
  else
    match getSigners env approval.sig 0 targetHash with
    | .error e => .error e
    | .ok (_, signers) =>
      _requireRuleFulfillment st 0 signers approval.atoms approval.assignment

/-- `DynamicBitVectorOrgChart._requireValidAddRoleRequest`. -/
def _requireValidAddRoleRequest (env : Env) (st : ChartState)
    (approval : SignedApproval) (roleDef : RoleDef) : Except Err Unit :=
  _requireValidAdminRequest env st approval
    (_computeAddRoleReqHash env roleDef approval.baseBlockHash)

/-- `DynamicBitVectorOrgChart._requireValidRemoveRequest`. -/
def _requireValidRemoveRequest (env : Env) (st : ChartState)
    (approval : SignedApproval) (roleId : Nat) : Except Err Unit :=
  _requireValidAdminRequest env st approval
    (_computeRemoveRoleReqHash env roleId approval.baseBlockHash)

/-- The ancestor-update loop of `addRole`: for each existing role (in index
order) extend its direct-junior mask if it is a direct parent, remember the
smallest parent index, and extend its structure mask if the new role is
reachable from it. -/
def addRoleScan (roleDef : RoleDef) (newRoleMask : Nat) :
    List Nat → ChartState × Nat → ChartState × Nat
  | [], acc => acc
  | i :: rest, (st, firstParent) =>
    let roleFlag := st.roleIdx2Flag i
    let roleMask := st.roleFlag2Mask roleFlag
    let jm1 := Function.update st.roleFlag2JuniorMask roleFlag
      (st.roleFlag2JuniorMask roleFlag ||| roleDef.roleFlag)
    let st1 :=
      if roleDef.seniorFlags &&& roleFlag ≠ 0 then
        { st with roleFlag2JuniorMask := jm1 }
      else st
    let firstParent1 :=
      if roleDef.seniorFlags &&& roleFlag ≠ 0 then
        (if i ≤ firstParent then i else firstParent)
      else firstParent
    let m1 := Function.update st1.roleFlag2Mask roleFlag (roleMask ||| newRoleMask)
    let st2 :=
      if roleMask &&& roleDef.seniorFlags ≠ 0 then
        { st1 with roleFlag2Mask := m1 }
      else st1
    addRoleScan roleDef newRoleMask rest (st2, firstParent1)

/-- Loop of `DynamicBitVectorOrgChart._shiftRightRoleIdx`, iterating
`i = numOfActiveRoles, …, start + 1` and copying `idx[i-1]` into `idx[i]`.
The fuel argument is the iteration count `numOfActiveRoles - start`. -/
def _shiftRightLoop (idx : Nat → Nat) (i : Nat) : Nat → (Nat → Nat)
  | 0 => idx
  | n + 1 => _shiftRightLoop (Function.update idx i (idx (i - 1))) (i - 1) n

/-- `DynamicBitVectorOrgChart._shiftRightRoleIdx`. -/
def _shiftRightRoleIdx (st : ChartState) (start : Nat) : ChartState :=
  { st with
    roleIdx2Flag :=
      _shiftRightLoop st.roleIdx2Flag st.numOfActiveRoles
        (st.numOfActiveRoles - start),
    numOfActiveRoles := st.numOfActiveRoles + 1 }

/-- Loop of `DynamicBitVectorOrgChart._shiftLeftRoleIdx`, iterating
`i = stop, …, numOfActiveRoles - 2` and copying `idx[i+1]` into `idx[i]`.
The fuel argument is the iteration count `(numOfActiveRoles - 1) - stop`. -/
def _shiftLeftLoop (idx : Nat → Nat) (i : Nat) : Nat → (Nat → Nat)
  | 0 => idx
  | n + 1 => _shiftLeftLoop (Function.update idx i (idx (i + 1))) (i + 1) n

/-- `DynamicBitVectorOrgChart._shiftLeftRoleIdx`. -/
def _shiftLeftRoleIdx (st : ChartState) (stop : Nat) : ChartState :=
  let idx1 :=
    _shiftLeftLoop st.roleIdx2Flag stop (st.numOfActiveRoles - 1 - stop)
  { st with
    roleIdx2Flag := Function.update idx1 (st.numOfActiveRoles - 1) 0,
    numOfActiveRoles := st.numOfActiveRoles - 1 }

/-- The loop of `addRole` that registers the submitted rule hashes for the
new role. -/
def addRuleHashes (roleFlag : Nat) : List Nat → (Nat → Nat) → (Nat → Nat)
  | [], m => m
  | h :: rest, m =>
    addRuleHashes roleFlag rest (Function.update m h (m h ||| roleFlag))

/-- `DynamicBitVectorOrgChart.addRole`. -/
def addRole (env : Env) (st : ChartState) (approval : SignedApproval)
    (roleDef : RoleDef) : Except Err ChartState :=
  if approval.selfSignRequired then .error .selfSignNotAllowed
  else
    match _requireValidRoleDef st roleDef with
    | .error e => .error e
    | .ok () =>
      match _requireValidAddRoleRequest env st approval roleDef with
      | .error e => .error e
      | .ok () =>
        let newRoleMask :=
          _buildStructureMask st.roleFlag2Mask roleDef.juniorFlags |||
            roleDef.roleFlag
        if newRoleMask &&& roleDef.seniorFlags ≠ 0 then .error .cycleDetected
        else
          let scanned :=
            addRoleScan roleDef newRoleMask (List.range st.numOfActiveRoles)
              (st, st.numOfActiveRoles)
          let firstParent := scanned.2
          let st2 := _shiftRightRoleIdx scanned.1 firstParent
          let st3 :=
            { st2 with
              roleIdx2Flag :=
                Function.update st2.roleIdx2Flag firstParent roleDef.roleFlag,
              roleId2Flag :=
                Function.update st2.roleId2Flag roleDef.roleId roleDef.roleFlag,
              roleFlag2JuniorMask :=
                Function.update st2.roleFlag2JuniorMask roleDef.roleFlag
                  roleDef.juniorFlags,
              roleFlag2Mask :=
                Function.update st2.roleFlag2Mask roleDef.roleFlag newRoleMask }
          .ok { st3 with
            ruleHashToRoleFlags :=
              addRuleHashes roleDef.roleFlag roleDef.ruleHashes
                st3.ruleHashToRoleFlags,
            freeRoleFlags := st3.freeRoleFlags ^^^ roleDef.roleFlag,
            activeRoleFlags := st3.activeRoleFlags ||| roleDef.roleFlag }

/-- The ancestor-update loop of `removeRole`: remember the index of the
removed role, clear it from direct-junior masks, and rebuild the structure
mask of every role that could reach it. -/
def removeRoleScan (delRoleFlag : Nat) :
    List Nat → ChartState × Nat → ChartState × Nat
  | [], acc => acc
  | i :: rest, (st, roleIdx) =>
    let roleFlag := st.roleIdx2Flag i
    if roleFlag = delRoleFlag then
      removeRoleScan delRoleFlag rest (st, i)
    else
      let roleMask := st.roleFlag2Mask roleFlag
      let juniorMask := st.roleFlag2JuniorMask roleFlag
      let juniorMask1 :=
        if juniorMask &&& delRoleFlag ≠ 0 then juniorMask ^^^ delRoleFlag
        else juniorMask
      let jm1 := Function.update st.roleFlag2JuniorMask roleFlag juniorMask1
      let st1 :=
        if juniorMask &&& delRoleFlag ≠ 0 then
          { st with roleFlag2JuniorMask := jm1 }
        else st
      let m1 := Function.update st1.roleFlag2Mask roleFlag
        (_buildStructureMask st1.roleFlag2Mask juniorMask1 ||| roleFlag)
      let st2 :=
        if roleMask &&& delRoleFlag ≠ 0 then
          { st1 with roleFlag2Mask := m1 }
        else st1
      removeRoleScan delRoleFlag rest (st2, roleIdx)

/-- `DynamicBitVectorOrgChart.removeRole`.  Note that `freeRoleFlags` is
deliberately left unchanged: the removed flag is not returned to the free
pool. -/
def removeRole (env : Env) (st : ChartState) (approval : SignedApproval)
    (roleId : Nat) : Except Err ChartState :=
  if approval.selfSignRequired then .error .selfSignNotAllowed
  else
    let delRoleFlag := st.roleId2Flag roleId
    if delRoleFlag = 0 then .error .unknownRole
    else
      match _requireValidRemoveRequest env st approval roleId with
      | .error e => .error e
      | .ok () =>
        let scanned :=
          removeRoleScan delRoleFlag (List.range st.numOfActiveRoles) (st, 0)
        let st2 := _shiftLeftRoleIdx scanned.1 scanned.2
        .ok { st2 with
          roleId2Flag := Function.update st2.roleId2Flag roleId 0,
          roleFlag2Mask := Function.update st2.roleFlag2Mask delRoleFlag 0,
          roleFlag2JuniorMask :=
            Function.update st2.roleFlag2JuniorMask delRoleFlag 0,
          activeRoleFlags := st2.activeRoleFlags ^^^ delRoleFlag }

/-- One public mutating operation of the engine. -/
inductive Op where
  | add (approval : SignedApproval) (roleDef : RoleDef)
  | remove (approval : SignedApproval) (roleId : Nat)
  | grant (approval : SignedApproval) (nominee : Nat) (roleId : Nat)
  | revoke (approval : SignedApproval) (nominee : Nat) (roleId : Nat)

/-- Execute one operation; a reverted operation leaves the state unchanged. -/
def applyOp (env : Env) (st : ChartState) : Op → ChartState
  | .add approval roleDef =>
    match addRole env st approval roleDef with
    | .ok st1 => st1
    | .error _ => st
  | .remove approval roleId =>
    match removeRole env st approval roleId with
    | .ok st1 => st1
    | .error _ => st
  | .grant approval nominee roleId =>
    match grantRole env st approval nominee roleId with
    | .ok st1 => st1
    | .error _ => st
  | .revoke approval nominee roleId =>
    match revokeRole env st approval nominee roleId with
    | .ok st1 => st1
    | .error _ => st

/-- Execute a sequence of operations. -/
def runOps (env : Env) (st : ChartState) (ops : List Op) : ChartState :=
  ops.foldl (applyOp env) st

/-- Reverse-topological invariant of the role-index array (property P4 of
the specification): whenever the role at index `j` is reachable from the
role at index `i` (its flag is contained in the structure mask of `i`), it
must appear at a strictly smaller index. -/
def RevTopological (st : ChartState) : Prop :=
  ∀ i < st.numOfActiveRoles, ∀ j < st.numOfActiveRoles, i ≠ j →
    st.roleFlag2Mask (st.roleIdx2Flag i) &&& st.roleIdx2Flag j ≠ 0 → j < i

instance (st : ChartState) : Decidable (RevTopological st) := by
  unfold RevTopological
  infer_instance

/-- A concrete environment for the executable scenarios: `ecrecover`
returns the `v` component of the signature, the recent block hashes are
all 999. -/
def env0 : Env :=
  { ecrecover := fun _ sg => sg.v
    blockhash := fun _ => 999
    blockNumber := 10
    domainSeparator := 0 }

/-- The all-empty admin approval used by the executable scenarios: no
signatures, an empty rule body, and base-block hash 0 (which is not in the
recent-block window of `env0`). -/
def approval0 : SignedApproval :=
  { sig := []
    atoms := []
    assignment := []
    selfSignRequired := false
    baseBlockHash := 0 }

/-- Canonical hash of the empty admin rule. -/
def adminRuleHash0 : Nat := _computeRuleHash approval0 ADMIN_HASH

/-- Concrete initial chart: a single role `root` with id 11 and flag 1,
and the empty admin rule registered with the admin sentinel.  This is the
state a generated dynamic-chart constructor produces for a one-role chart. -/
def st0 : ChartState :=
  { roleId2Flag := Function.update (fun _ => 0) 11 1
    roleFlag2Mask := Function.update (fun _ => 0) 1 1
    user2Roles := fun _ => 0
    ruleHashToRoleFlags := Function.update (fun _ => 0) adminRuleHash0 UMAX
    roleIdToNOAssignments := fun _ => 0
    activeRoleFlags := 1
    roleIdx2Flag := Function.update (fun _ => 0) 0 1
    roleFlag2JuniorMask := fun _ => 0
    numOfActiveRoles := 1
    freeRoleFlags := UMAX ^^^ 1 }

/-- Role definition: role `A` (id 12, flag 2), below `root`. -/
def rdA : RoleDef :=
  { roleId := 12, roleFlag := 2, seniorFlags := 1, juniorFlags := 0,
    ruleHashes := [] }

/-- Role definition: role `B` (id 13, flag 4), below `root`. -/
def rdB : RoleDef :=
  { roleId := 13, roleFlag := 4, seniorFlags := 1, juniorFlags := 0,
    ruleHashes := [] }

/-- Role definition: role `R` (id 14, flag 8), below `A` and above `B`. -/
def rdR : RoleDef :=
  { roleId := 14, roleFlag := 8, seniorFlags := 2, juniorFlags := 4,
    ruleHashes := [] }

/-- Role definition: role `C` (id 15, flag 16), below `B`. -/
def rdC : RoleDef :=
  { roleId := 15, roleFlag := 16, seniorFlags := 4, juniorFlags := 0,
    ruleHashes := [] }

/-- State after adding roles `A` and `B` below `root`. -/
def stPre : ChartState :=
  runOps env0 st0 [.add approval0 rdA, .add approval0 rdB]

/-- State after additionally adding `R` (senior `A`, junior `B`). -/
def stABR : ChartState := applyOp env0 stPre (.add approval0 rdR)

/-- State after additionally adding `C` below `B` and then removing `C`
again. -/
def stFinal : ChartState :=
  runOps env0 stABR [.add approval0 rdC, .remove approval0 15]

/-- Reference value for `_buildStructureMask`: the bitwise OR of
`rf2m (2 ^ i)` over all bit positions `i < n` that are set in `flags`. -/
def orBitsUpTo (rf2m : Nat → Nat) (n : Nat) (flags : Nat) : Nat :=
  (List.range n).foldr
    (fun i acc => if flags.testBit i then rf2m (2 ^ i) ||| acc else acc) 0

/-- Reference value over all 256 bit positions of a `uint256`. -/
def orOverSetBits (rf2m : Nat → Nat) (flags : Nat) : Nat :=
  orBitsUpTo rf2m 256 flags

/-- Number of set bits among the 256 bit positions of a `uint256`. -/
def popcnt (flags : Nat) : Nat :=
  ((Finset.range 256).filter (fun i => flags.testBit i = true)).card

/-- Approval carrying the atom list `[2, 1]`. -/
def apr21 : SignedApproval :=
  { sig := []
    atoms := [2, 1]
    assignment := []
    selfSignRequired := false
    baseBlockHash := 0 }

/-- Approval carrying the atom list `[1, 2]`. -/
def apr12 : SignedApproval :=
  { sig := []
    atoms := [1, 2]
    assignment := []
    selfSignRequired := false
    baseBlockHash := 0 }

/-- Role definition naming the flag of the removed role `A` (flag 2) as its
senior. -/
def rdPhantom : RoleDef :=
  { roleId := 13, roleFlag := 4, seniorFlags := 2, juniorFlags := 0,
    ruleHashes := [] }

/-- State reached from `st0` by adding role `A` (flag 2) and then removing
it again: flag 2 is neither active nor free afterwards. -/
def stRemovedA : ChartState :=
  runOps env0 st0 [.add approval0 rdA, .remove approval0 12]

/-- Admin approval with 101 signatures (ascending recovered signers under
`env0`) and a base-block hash that is not in the recent window. -/
def approvalBig : SignedApproval :=
  { sig := (List.range 101).map (fun i => { v := i + 1, r := 0, s := 0 })
    atoms := []
    assignment := []
    selfSignRequired := false
    baseBlockHash := 0 }

theorem keccak_injective : Function.Injective keccak := by
  intro a
  induction a with
  | nil =>
    intro b h
    cases b with
    | nil => rfl
    | cons y ys => simp [keccak] at h
  | cons x xs ih =>
    intro b h
    cases b with
    | nil => simp [keccak] at h
    | cons y ys =>
      simp only [keccak, Nat.add_right_cancel_iff] at h
      have h2 := Nat.pair_eq_pair.mp h
      rw [h2.1, ih h2.2]


/-- A set bit, removed by XOR with its power of two, strictly decreases the
value. -/
theorem xor_two_pow_lt (x j : Nat) (h : x.testBit j = true) : x ^^^ 2 ^ j < x := by
  apply Nat.lt_of_testBit j
  · rw [Nat.testBit_xor, h, Nat.testBit_two_pow_self]
    rfl
  · exact h
  · intro k hk
    rw [Nat.testBit_xor, Nat.testBit_two_pow_of_ne (Nat.ne_of_lt hk)]
    rw [Bool.xor_false]

/-- A number between consecutive powers of two has the corresponding bit
set. -/
theorem testBit_of_bounds (mask h : Nat) (hlo : 2 ^ h ≤ mask)
    (hhi : mask < 2 ^ (h + 1)) : mask.testBit h = true := by
  rw [Nat.testBit_to_div_mod]
  have hdiv : mask / 2 ^ h = 1 := by
    apply Nat.div_eq_of_lt_le
    · simpa using hlo
    · calc mask < 2 ^ (h + 1) := hhi
        _ = (1 + 1) * 2 ^ h := by rw [Nat.pow_succ]; ring
  rw [hdiv]
  rfl

/-- A nonzero `&&&` with a power of two means the bit is set. -/
theorem testBit_of_and_two_pow (mask e : Nat) (h : 2 ^ e &&& mask ≠ 0) :
    mask.testBit e = true := by
  rw [Nat.two_pow_and] at h
  rcases Nat.mul_ne_zero_iff.mp h with ⟨-, h2⟩
  cases hb : mask.testBit e with
  | false => rw [hb] at h2; simp at h2
  | true => rfl

/-- A set bit yields a nonzero `&&&` with the corresponding power of two. -/
theorem and_two_pow_of_testBit (mask e : Nat) (h : mask.testBit e = true) :
    2 ^ e &&& mask ≠ 0 := by
  rw [Nat.two_pow_and, h]
  simp only [Bool.toNat_true, Nat.mul_one]
  exact (Nat.two_pow_pos e).ne'

/-- Single unfolding equation for `_getPureLoop` when the shift is still
positive. -/
theorem getPureLoop_succ (mask fuel piv shift : Nat) (hs : shift ≠ 0) :
    _getPureLoop mask (fuel + 1) piv shift =
      if piv &&& mask ≠ 0 then piv
      else _getPureLoop mask fuel
        (if mask < piv then piv >>> (shift / 2) else piv <<< (shift / 2))
        (shift / 2) := by
  simp only [_getPureLoop]
  rw [if_neg hs]

/-- Main invariant of the `_getPure` binary-search loop: starting at
`piv = 2 ^ e` with `shift = 2 ^ k`, if the highest set bit `h` of `mask`
satisfies `|h - e| ≤ 2 ^ k - 1` and `2 ^ k ≤ e`, the loop returns a power
of two whose bit is set in `mask`. -/
theorem getPureLoop_spec (mask h : Nat) (hlo : 2 ^ h ≤ mask)
    (hhi : mask < 2 ^ (h + 1)) :
    ∀ k e, 2 ^ k ≤ e → e ≤ h + (2 ^ k - 1) → h ≤ e + (2 ^ k - 1) →
      ∃ j, _getPureLoop mask (k + 1) (2 ^ e) (2 ^ k) = 2 ^ j ∧
        mask.testBit j = true := by
  have hbit : mask.testBit h = true := testBit_of_bounds mask h hlo hhi
  intro k
  induction k with
  | zero =>
    intro e h1 h2 h3
    have he : e = h := by omega
    subst he
    refine ⟨e, ?_, hbit⟩
    rw [getPureLoop_succ mask 0 (2 ^ e) (2 ^ 0) (by positivity)]
    rw [if_pos (and_two_pow_of_testBit mask e hbit)]
  | succ k ih =>
    intro e h1 h2 h3
    have hp2 : (2 : Nat) ^ (k + 1) = 2 * 2 ^ k := by rw [Nat.pow_succ]; ring
    have hp1 : (1 : Nat) ≤ 2 ^ k := Nat.one_le_two_pow
    have hhalf : 2 ^ (k + 1) / 2 = 2 ^ k := by omega
    rw [getPureLoop_succ mask (k + 1) (2 ^ e) (2 ^ (k + 1))
      (by positivity)]
    by_cases hfound : 2 ^ e &&& mask ≠ 0
    · rw [if_pos hfound]
      exact ⟨e, rfl, testBit_of_and_two_pow mask e hfound⟩
    · rw [if_neg hfound]
      push_neg at hfound
      have hbe : mask.testBit e = false := by
        cases hb : mask.testBit e with
        | false => rfl
        | true => exact absurd hfound (and_two_pow_of_testBit mask e hb)
      have hne : e ≠ h := fun he => by rw [he, hbit] at hbe; cases hbe
      rw [hhalf]
      by_cases hlt : mask < 2 ^ e
      · -- all bits of mask are below e: move the pivot down
        have hgt : h < e := by
          have := Nat.lt_of_le_of_lt hlo hlt
          exact (Nat.pow_lt_pow_iff_right (by omega)).mp this
        have hshift : (2 : Nat) ^ e >>> 2 ^ k = 2 ^ (e - 2 ^ k) := by
          rw [Nat.shiftRight_eq_div_pow]
          exact Nat.pow_div (by omega) (by omega)
        rw [if_pos hlt, hshift]
        exact ih (e - 2 ^ k) (by omega) (by omega) (by omega)
      · -- the highest bit of mask is at e or above: move the pivot up
        have hle : e < h := by
          push_neg at hlt
          have := Nat.lt_of_le_of_lt hlt hhi
          have := (Nat.pow_lt_pow_iff_right (a := 2) (by omega)).mp this
          omega
        have hshift : (2 : Nat) ^ e <<< 2 ^ k = 2 ^ (e + 2 ^ k) := by
          rw [Nat.shiftLeft_eq, Nat.pow_add]
        rw [if_neg hlt, hshift]
        exact ih (e + 2 ^ k) (by omega) (by omega) (by omega)

/-- Correctness of `_getPure`: on a nonzero `uint256` it returns a power of
two whose bit is set in the argument. -/
theorem getPure_spec (mask : Nat) (h0 : mask ≠ 0) (hlt : mask < 2 ^ 256) :
    ∃ j, _getPure mask = 2 ^ j ∧ mask.testBit j = true := by
  have hlo : 2 ^ mask.log2 ≤ mask := Nat.log2_self_le h0
  have hhi : mask < 2 ^ (mask.log2 + 1) := Nat.lt_log2_self
  by_cases hpow : mask &&& (mask - 1) = 0
  · -- mask is itself a power of two
    refine ⟨mask.log2, ?_, testBit_of_bounds mask mask.log2 hlo hhi⟩
    have hmeq : mask = 2 ^ mask.log2 := by
      by_contra hne
      have hgt : 2 ^ mask.log2 < mask := lt_of_le_of_ne hlo (Ne.symm hne)
      have hbit1 : (mask - 1).testBit mask.log2 = true :=
        testBit_of_bounds _ _ (by omega) (by omega)
      have hbit0 : mask.testBit mask.log2 = true :=
        testBit_of_bounds mask mask.log2 hlo hhi
      have hand : (mask &&& (mask - 1)).testBit mask.log2 = true := by
        rw [Nat.testBit_land, hbit0, hbit1]; rfl
      rw [hpow, Nat.zero_testBit] at hand
      cases hand
    unfold _getPure
    rw [if_neg h0, if_pos hpow]
    exact hmeq
  · -- at least two bits are set: run the binary search
    have hlog : mask.log2 < 256 := (Nat.log2_lt h0).mpr hlt
    have hlog1 : 1 ≤ mask.log2 := by
      by_contra hlog0
      have h2 : mask.log2 = 0 := by omega
      have hm2 : mask < 2 := by
        have h3 := hhi
        rw [h2] at h3
        simpa using h3
      have hm1 : mask = 1 := by omega
      rw [hm1] at hpow
      exact hpow rfl
    have hrun := getPureLoop_spec mask mask.log2 hlo hhi 7 128
      (by norm_num) (by omega) (by omega)
    unfold _getPure
    rw [if_neg h0, if_neg hpow]
    have h128 : (1 : Nat) <<< 128 = 2 ^ 128 := Nat.one_shiftLeft 128
    have h27 : (8 : Nat) = 7 + 1 := by norm_num
    have h77 : (128 : Nat) = 2 ^ 7 := by norm_num
    rw [h128, h27, h77]
    exact hrun

theorem orFold_acc (rf2m : Nat → Nat) (flags : Nat) (l : List Nat) (acc : Nat) :
    l.foldr (fun i a => if flags.testBit i then rf2m (2 ^ i) ||| a else a) acc =
      l.foldr (fun i a => if flags.testBit i then rf2m (2 ^ i) ||| a else a) 0 |||
        acc := by
  induction l with
  | nil => simp
  | cons x t ih =>
    simp only [List.foldr_cons, ih]
    by_cases hb : flags.testBit x
    · rw [if_pos hb, if_pos hb, Nat.lor_assoc]
    · rw [if_neg hb, if_neg hb]

theorem orBitsUpTo_succ (rf2m : Nat → Nat) (n : Nat) (flags : Nat) :
    orBitsUpTo rf2m (n + 1) flags =
      orBitsUpTo rf2m n flags |||
        (if flags.testBit n then rf2m (2 ^ n) else 0) := by
  unfold orBitsUpTo
  rw [List.range_succ, List.foldr_append]
  simp only [List.foldr_cons, List.foldr_nil]
  rw [orFold_acc]
  by_cases hb : flags.testBit n = true
  · rw [if_pos hb, if_pos hb, Nat.or_zero]
  · rw [if_neg hb, if_neg hb]

theorem orBitsUpTo_zero_flags (rf2m : Nat → Nat) (n : Nat) :
    orBitsUpTo rf2m n 0 = 0 := by
  induction n with
  | zero => rfl
  | succ n ih =>
    rw [orBitsUpTo_succ, ih, Nat.zero_testBit, if_neg Bool.false_ne_true,
      Nat.or_zero]

theorem orBitsUpTo_congr (rf2m : Nat → Nat) (n : Nat) (f g : Nat)
    (h : ∀ i, i < n → f.testBit i = g.testBit i) :
    orBitsUpTo rf2m n f = orBitsUpTo rf2m n g := by
  induction n with
  | zero => rfl
  | succ n ih =>
    rw [orBitsUpTo_succ, orBitsUpTo_succ, ih (fun i hi => h i (by omega)),
      h n (by omega)]

/-- Splitting the reference OR at one set bit. -/
theorem orBitsUpTo_split (rf2m : Nat → Nat) (n : Nat) (flags j : Nat)
    (hj : j < n) (hb : flags.testBit j = true) :
    orBitsUpTo rf2m n flags =
      rf2m (2 ^ j) ||| orBitsUpTo rf2m n (flags ^^^ 2 ^ j) := by
  induction n with
  | zero => omega
  | succ n ih =>
    have hxb : ∀ i, i ≠ j → (flags ^^^ 2 ^ j).testBit i = flags.testBit i := by
      intro i hi
      rw [Nat.testBit_xor, Nat.testBit_two_pow_of_ne (fun he => hi he.symm)]
      rw [Bool.xor_false]
    have hxj : (flags ^^^ 2 ^ j).testBit j = false := by
      rw [Nat.testBit_xor, hb, Nat.testBit_two_pow_self]
      rfl
    rw [orBitsUpTo_succ, orBitsUpTo_succ]
    by_cases hjn : j < n
    · rw [ih hjn, hxb n (by omega), Nat.lor_assoc]
    · have hjeq : j = n := by omega
      subst hjeq
      rw [hb, hxj]
      rw [if_pos rfl, if_neg Bool.false_ne_true, Nat.or_zero]
      rw [orBitsUpTo_congr rf2m j flags (flags ^^^ 2 ^ j)
        (fun i hi => (hxb i (by omega)).symm)]
      rw [Nat.lor_comm]

theorem popcnt_pos (flags : Nat) (h0 : flags ≠ 0) (hlt : flags < 2 ^ 256) :
    0 < popcnt flags := by
  have hlo : 2 ^ flags.log2 ≤ flags := Nat.log2_self_le h0
  have hhi : flags < 2 ^ (flags.log2 + 1) := Nat.lt_log2_self
  have hbit : flags.testBit flags.log2 = true :=
    testBit_of_bounds flags flags.log2 hlo hhi
  have hmem : flags.log2 ∈
      (Finset.range 256).filter (fun i => flags.testBit i = true) := by
    rw [Finset.mem_filter, Finset.mem_range]
    exact ⟨(Nat.log2_lt h0).mpr hlt, hbit⟩
  exact Finset.card_pos.mpr ⟨flags.log2, hmem⟩

theorem popcnt_xor (flags j : Nat) (hb : flags.testBit j = true)
    (hj : j < 256) : popcnt (flags ^^^ 2 ^ j) = popcnt flags - 1 := by
  unfold popcnt
  have hset : (Finset.range 256).filter
      (fun i => (flags ^^^ 2 ^ j).testBit i = true) =
      ((Finset.range 256).filter (fun i => flags.testBit i = true)).erase j := by
    ext i
    rw [Finset.mem_erase, Finset.mem_filter, Finset.mem_filter]
    constructor
    · intro ⟨hir, hib⟩
      have hij : i ≠ j := by
        intro he
        subst he
        rw [Nat.testBit_xor, hb, Nat.testBit_two_pow_self] at hib
        cases hib
      rw [Nat.testBit_xor, Nat.testBit_two_pow_of_ne (fun he => hij he.symm),
        Bool.xor_false] at hib
      exact ⟨hij, hir, hib⟩
    · intro ⟨hij, hir, hib⟩
      refine ⟨hir, ?_⟩
      rw [Nat.testBit_xor, Nat.testBit_two_pow_of_ne (fun he => hij he.symm),
        Bool.xor_false]
      exact hib
  rw [hset]
  apply Finset.card_erase_of_mem
  rw [Finset.mem_filter, Finset.mem_range]
  exact ⟨hj, hb⟩

/-- Sufficiency of the fuel in `_buildStructureMaskAux`: with fuel at least
the number of set bits, the loop computes the full OR over all set bits. -/
theorem buildStructureMaskAux_eq (rf2m : Nat → Nat) :
    ∀ fuel flags, flags < 2 ^ 256 → popcnt flags ≤ fuel →
      _buildStructureMaskAux rf2m fuel flags = orOverSetBits rf2m flags := by
  intro fuel
  induction fuel with
  | zero =>
    intro flags hlt hpc
    have h0 : flags = 0 := by
      by_contra h0
      have := popcnt_pos flags h0 hlt
      omega
    subst h0
    unfold _buildStructureMaskAux orOverSetBits
    rw [orBitsUpTo_zero_flags]
  | succ fuel ih =>
    intro flags hlt hpc
    by_cases h0 : flags = 0
    · subst h0
      unfold _buildStructureMaskAux orOverSetBits
      rw [orBitsUpTo_zero_flags]
      simp
    · obtain ⟨j, hj, hb⟩ := getPure_spec flags h0 hlt
      have hj256 : j < 256 := by
        have h1 : 2 ^ j ≤ flags := Nat.testBit_implies_ge hb
        have := Nat.lt_of_le_of_lt h1 hlt
        exact (Nat.pow_lt_pow_iff_right (a := 2) (by omega)).mp this
      have hx : flags ^^^ _getPure flags = flags ^^^ 2 ^ j := by rw [hj]
      have hxlt : flags ^^^ 2 ^ j < flags := xor_two_pow_lt flags j hb
      have step : _buildStructureMaskAux rf2m (fuel + 1) flags =
          rf2m (_getPure flags) |||
            _buildStructureMaskAux rf2m fuel (flags ^^^ _getPure flags) := by
        simp only [_buildStructureMaskAux]
        rw [if_neg h0]
      rw [step, hx, hj]
      rw [ih (flags ^^^ 2 ^ j) (by omega)
        (by rw [popcnt_xor flags j hb hj256]
            have := popcnt_pos flags h0 hlt
            omega)]
      unfold orOverSetBits
      rw [orBitsUpTo_split rf2m 256 flags j hj256 hb]

theorem popcnt_le (flags : Nat) : popcnt flags ≤ 256 := by
  unfold popcnt
  calc ((Finset.range 256).filter (fun i => flags.testBit i = true)).card
      ≤ (Finset.range 256).card := Finset.card_filter_le _ _
    _ = 256 := Finset.card_range 256

/-- Correctness of `_buildStructureMask` on `uint256` inputs. -/
theorem buildStructureMask_eq (rf2m : Nat → Nat) (flags : Nat)
    (hlt : flags < 2 ^ 256) :
    _buildStructureMask rf2m flags = orOverSetBits rf2m flags :=
  buildStructureMaskAux_eq rf2m 256 flags hlt (popcnt_le flags)

/-- C8: for every 256-bit input, `_buildStructureMask` terminates with the
bitwise OR of `rf2m (2 ^ i)` over all set bit positions `i` of the input,
and for every nonzero 256-bit `m` the helper `_getPure m` returns a nonzero
power of two `p` with `p &&& m = p`, so each loop iteration removes one set
bit (the XOR strictly decreases the remaining flags). -/
theorem C8_buildStructureMask_correct (rf2m : Nat → Nat) (flags m : Nat)
    (hflags : flags < 2 ^ 256) (hm0 : m ≠ 0) (hm : m < 2 ^ 256) :
    _buildStructureMask rf2m flags = orOverSetBits rf2m flags ∧
      (∃ j, _getPure m = 2 ^ j) ∧
      _getPure m &&& m = _getPure m ∧ _getPure m ≠ 0 ∧
      m ^^^ _getPure m < m := by
  obtain ⟨j, hj, hb⟩ := getPure_spec m hm0 hm
  refine ⟨buildStructureMask_eq rf2m flags hflags, ⟨j, hj⟩, ?_, ?_, ?_⟩
  · rw [hj, Nat.two_pow_and, hb]
    simp
  · rw [hj]
    exact (Nat.two_pow_pos j).ne'
  · rw [hj]
    exact xor_two_pow_lt m j hb

/-- Witness for C8 at the concrete inputs `flags = 5`, `m = 6`. -/
theorem C8_buildStructureMask_correct_witness :
    (5 : Nat) < 2 ^ 256 ∧ (6 : Nat) ≠ 0 ∧ (6 : Nat) < 2 ^ 256 ∧
      (_buildStructureMask (fun x => 2 * x) 5 = orOverSetBits (fun x => 2 * x) 5 ∧
        (∃ j, _getPure 6 = 2 ^ j) ∧
        _getPure 6 &&& 6 = _getPure 6 ∧ _getPure 6 ≠ 0 ∧
        6 ^^^ _getPure 6 < 6) :=
  ⟨by decide, by decide, by decide,
    C8_buildStructureMask_correct (fun x => 2 * x) 5 6 (by decide) (by decide)
      (by decide)⟩

/-- C7: `hasRole` fails with `UnknownRole` exactly when the looked-up flag is
zero; otherwise it returns `true` iff the user directly holds the flag, or
holds some active role whose built structure mask covers the flag; and
`strictlyHasRole` returning `true` implies `hasRole` returning `true`. -/
theorem C7_hasRole_correct (st : ChartState) (u r : Nat) :
    (hasRole st u r = .error .unknownRole ↔ st.roleId2Flag r = 0) ∧
    (hasRole st u r = .ok true ↔
      st.roleId2Flag r ≠ 0 ∧
        ((st.user2Roles u &&& st.activeRoleFlags) &&& st.roleId2Flag r =
            st.roleId2Flag r ∨
          (st.user2Roles u &&& st.activeRoleFlags ≠ 0 ∧
            _buildStructureMask st.roleFlag2Mask
                (st.user2Roles u &&& st.activeRoleFlags) &&&
              st.roleId2Flag r = st.roleId2Flag r))) ∧
    (strictlyHasRole st u r = .ok true → hasRole st u r = .ok true) := by
  by_cases h1 : st.roleId2Flag r = 0
  · simp [hasRole, strictlyHasRole, h1]
  · by_cases h2 : (st.user2Roles u &&& st.activeRoleFlags) &&&
        st.roleId2Flag r = st.roleId2Flag r
    · simp [hasRole, strictlyHasRole, h1, h2]
    · by_cases h3 : st.user2Roles u &&& st.activeRoleFlags = 0
      · simp [hasRole, strictlyHasRole, h1, h2, h3, Ne.symm h1]
      · simp [hasRole, strictlyHasRole, h1, h2, h3]

/-- C9: `_getAbsNumberOfRequiredSigners` computes the ceiling of
`base * perc / 100`, clamped to the interval `[1, MAX_NUM_SIGNERS]`. -/
theorem C9_getAbsNumberOfRequiredSigners (base perc : Nat)
    (hperc : perc ≤ 255) (hov : base * perc < 2 ^ 256) :
    _getAbsNumberOfRequiredSigners base perc =
      min MAX_NUM_SIGNERS (max 1 ((base * perc + 99) / 100)) := by
  simp only [MAX_NUM_SIGNERS]
  have hgoal : _getAbsNumberOfRequiredSigners base perc =
      (if base * perc / 100 + (if base * perc % 100 > 0 then 1 else 0) > 100
        then 100
        else
          if base * perc / 100 + (if base * perc % 100 > 0 then 1 else 0) < 1
          then 1
          else base * perc / 100 +
            (if base * perc % 100 > 0 then 1 else 0)) := rfl
  rw [hgoal]
  by_cases hr : base * perc % 100 > 0
  · rw [if_pos hr]
    split
    · omega
    · split <;> omega
  · rw [if_neg hr]
    split
    · omega
    · split <;> omega

/-- Witness for C9 at the concrete input `base = 7`, `perc = 50`. -/
theorem C9_getAbsNumberOfRequiredSigners_witness :
    (50 : Nat) ≤ 255 ∧ 7 * 50 < 2 ^ 256 ∧
      _getAbsNumberOfRequiredSigners 7 50 =
        min MAX_NUM_SIGNERS (max 1 ((7 * 50 + 99) / 100)) :=
  ⟨by decide, by decide, C9_getAbsNumberOfRequiredSigners 7 50 (by decide)
    (by decide)⟩

/-- C10: the third `require` of `onlyValidApprovals` compares
`approval.sig.length` with itself, so it can never fail: the modifier never
produces the `invalidArguments` error, its outcome does not depend on the
assignment array at all, and in the fulfillment check the signers beyond
`assignment.length` are never consulted and counted toward no quota. -/
theorem C10_assignment_length_check_vacuous :
    (∀ env approval,
      onlyValidApprovals env approval ≠ .error .invalidArguments) ∧
    (∀ env approval other,
      onlyValidApprovals env { approval with assignment := other } =
        onlyValidApprovals env approval) ∧
    (∀ st nominee atoms assignment signers i cnt,
      fulfillLoop1 st nominee atoms assignment
          (signers.take assignment.length) i cnt =
        fulfillLoop1 st nominee atoms assignment signers i cnt) := by
  refine ⟨?_, ?_, ?_⟩
  · intro env approval
    unfold onlyValidApprovals
    split
    · intro h
      cases h
    · split
      · intro h
        cases h
      · split
        · intro h
          rename_i hcond
          exact hcond rfl
        · intro h
          cases h
  · intro env approval other
    rfl
  · intro st nominee atoms assignment
    induction assignment with
    | nil =>
      intro signers i cnt
      rw [List.length_nil, List.take_zero]
      rfl
    | cons ai arest ih =>
      intro signers i cnt
      cases signers with
      | nil => rw [List.take_nil]
      | cons sg srest =>
        rw [List.length_cons, List.take_succ_cons]
        show fulfillLoop1 st nominee atoms (ai :: arest)
            (sg :: srest.take arest.length) i cnt =
          fulfillLoop1 st nominee atoms (ai :: arest) (sg :: srest) i cnt
        simp only [fulfillLoop1]
        by_cases h1 : sg = nominee
        · rw [if_pos h1, if_pos h1]
          by_cases h2 : i = 255
          · rw [if_pos h2, if_pos h2]
          · rw [if_neg h2, if_neg h2, ih srest (i + 1) cnt]
        · rw [if_neg h1, if_neg h1]
          by_cases h3 : atoms.length ≤ ai
          · rw [if_pos h3, if_pos h3]
          · rw [if_neg h3, if_neg h3]
            cases hres :
              (if atoms.getD ai 0 &&& ATOM_FLAG_STRICT = ATOM_FLAG_STRICT then
                strictlyHasRole st sg (atoms.getD ai 0 &&& ROLE_ID_MASK)
              else hasRole st sg (atoms.getD ai 0 &&& ROLE_ID_MASK)) with
            | error e => rfl
            | ok b =>
              cases b with
              | false => rfl
              | true =>
                by_cases h2 : i = 255
                · rw [if_pos h2, if_pos h2]
                · rw [if_neg h2, if_neg h2,
                    ih srest (i + 1) (Function.update cnt ai (cnt ai + 1))]

/-- Counterexample to C4: the rule hash computed on-chain by
`_computeRuleHash` is NOT invariant under permutation of the atoms array —
the function hashes the atoms exactly as submitted, without sorting, so the
permuted list `[2, 1]` of `[1, 2]` produces a different hash. -/
theorem C4_counterexample :
    List.Perm apr21.atoms apr12.atoms ∧
      _computeRuleHash apr21 GRANT_HASH ≠ _computeRuleHash apr12 GRANT_HASH := by
  constructor
  · decide
  · decide

/-- C4 amended: the on-chain `_computeRuleHash` is order-sensitive — for a
fixed action and self-sign flag it yields the same hash precisely when the
atom lists are equal (with keccak modelled as collision-free), so a
permutation yields the same hash only when it leaves the list unchanged;
the canonical ascending sort must be applied off-chain before hashing. -/
theorem C4_amended_ruleHash_order_sensitive (action : Nat) (ss : Bool)
    (s1 s2 : List Signature) (as1 as2 : List Nat) (bb1 bb2 : Nat)
    (atoms1 atoms2 : List Nat) :
    _computeRuleHash ⟨s1, atoms1, as1, ss, bb1⟩ action =
      _computeRuleHash ⟨s2, atoms2, as2, ss, bb2⟩ action ↔
      atoms1 = atoms2 := by
  constructor
  · intro h
    unfold _computeRuleHash at h
    have h2 := keccak_injective h
    have h3 : keccak atoms1 = keccak atoms2 := by
      simpa using h2
    exact keccak_injective h3
  · intro h
    unfold _computeRuleHash
    rw [h]

/-- Complementing against `~freeRoleFlags` is the same as demanding
disjointness from `freeRoleFlags`, for 256-bit values. -/
theorem and_not_eq_self_iff (x f : Nat) (hx : x < 2 ^ 256)
    (hf : f < 2 ^ 256) : x &&& (UMAX ^^^ f) = x ↔ x &&& f = 0 := by
  have humax : ∀ i, i < 256 → (UMAX).testBit i = true := by
    intro i hi
    unfold UMAX
    rw [Nat.testBit_two_pow_sub_one]
    simpa using hi
  constructor
  · intro h
    apply Nat.eq_of_testBit_eq
    intro i
    rw [Nat.testBit_land, Nat.zero_testBit]
    cases hxi : x.testBit i with
    | false => rfl
    | true =>
      cases hfi : f.testBit i with
      | false => rfl
      | true =>
        exfalso
        have hi256 : i < 256 := by
          have h1 : 2 ^ i ≤ f := Nat.testBit_implies_ge hfi
          have h2 := Nat.lt_of_le_of_lt h1 hf
          exact (Nat.pow_lt_pow_iff_right (a := 2) (by omega)).mp h2
        have hcontra := congrArg (fun y => y.testBit i) h
        simp only [Nat.testBit_land, Nat.testBit_xor, humax i hi256, hxi,
          hfi] at hcontra
        cases hcontra
  · intro h
    apply Nat.eq_of_testBit_eq
    intro i
    rw [Nat.testBit_land]
    cases hxi : x.testBit i with
    | false => rfl
    | true =>
      have hi256 : i < 256 := by
        have h1 : 2 ^ i ≤ x := Nat.testBit_implies_ge hxi
        have h2 := Nat.lt_of_le_of_lt h1 hx
        exact (Nat.pow_lt_pow_iff_right (a := 2) (by omega)).mp h2
      have hfi : f.testBit i = false := by
        cases hfi : f.testBit i with
        | false => rfl
        | true =>
          exfalso
          have hcontra := congrArg (fun y => y.testBit i) h
          simp only [Nat.testBit_land, Nat.zero_testBit, hxi, hfi] at hcontra
          simp at hcontra
      rw [Nat.testBit_xor, humax i hi256, hfi]
      rfl

set_option maxRecDepth 10000 in
/-- Counterexample to C3: after role `A` (flag 2) has been removed, its
flag is neither active nor free, yet `add_role` with `senior_flags = 2`
passes the seniors-exist check (which tests against `~free_role_flags`,
not against the active flags) and succeeds instead of failing with
`SeniorsMissing`. -/
theorem C3_counterexample :
    (addRole env0 st0 approval0 rdA).isOk = true ∧
      (removeRole env0 (applyOp env0 st0 (.add approval0 rdA)) approval0
        12).isOk = true ∧
      stRemovedA.activeRoleFlags &&& 2 = 0 ∧
      stRemovedA.freeRoleFlags &&& 2 = 0 ∧
      _requireValidRoleDef stRemovedA rdPhantom ≠ .error .seniorsMissing ∧
      (addRole env0 stRemovedA approval0 rdPhantom).isOk = true := by
  decide

/-- C3 amended: when the earlier checks of `_requireValidRoleDef` pass, the
call fails with `SeniorsMissing` (resp. `JuniorsMissing`) precisely when
`senior_flags` (resp. `junior_flags`) has a bit inside `free_role_flags`;
a bit that is neither active nor free — the flag of a previously-removed
role — is accepted. -/
theorem C3_amended_missingRoles_iff (st : ChartState) (rd : RoleDef)
    (hfree : st.freeRoleFlags < 2 ^ 256)
    (hsen : rd.seniorFlags < 2 ^ 256) (hjun : rd.juniorFlags < 2 ^ 256)
    (h1 : rd.roleFlag ≠ 0)
    (h2 : rd.roleFlag &&& (rd.roleFlag - 1) = 0)
    (h3 : rd.roleFlag &&& st.freeRoleFlags ≠ 0)
    (h4 : ((rd.roleId <<< 16) % 2 ^ 256) >>> 16 = rd.roleId)
    (h5 : st.roleId2Flag rd.roleId = 0) :
    (_requireValidRoleDef st rd = .error .seniorsMissing ↔
      rd.seniorFlags &&& st.freeRoleFlags ≠ 0) ∧
    (rd.seniorFlags &&& st.freeRoleFlags = 0 →
      (_requireValidRoleDef st rd = .error .juniorsMissing ↔
        rd.juniorFlags &&& st.freeRoleFlags ≠ 0)) := by
  have hsen_iff := and_not_eq_self_iff rd.seniorFlags st.freeRoleFlags hsen hfree
  have hjun_iff := and_not_eq_self_iff rd.juniorFlags st.freeRoleFlags hjun hfree
  unfold _requireValidRoleDef
  rw [if_neg h1, if_neg (not_not_intro h2), if_neg h3,
    if_neg (not_not_intro h4), if_neg (not_not_intro h5)]
  by_cases hs : rd.seniorFlags &&& st.freeRoleFlags = 0
  · rw [if_neg (not_not_intro (hsen_iff.mpr hs))]
    by_cases hj : rd.juniorFlags &&& st.freeRoleFlags = 0
    · rw [if_neg (not_not_intro (hjun_iff.mpr hj))]
      by_cases hrl : rd.ruleHashes.length < MAX_NUM_RULES
      · rw [if_neg (not_not_intro hrl)]
        exact ⟨by simp [hs], fun _ => by simp [hj]⟩
      · rw [if_pos hrl]
        exact ⟨by simp [hs], fun _ => by simp [hj]⟩
    · rw [if_pos (fun heq => hj (hjun_iff.mp heq))]
      exact ⟨by simp [hs], fun _ => by simp [hj]⟩
  · rw [if_pos (fun heq => hs (hsen_iff.mp heq))]
    exact ⟨by simp [hs], fun h => absurd h hs⟩

set_option maxRecDepth 10000 in
/-- Witness for the amended C3 at the concrete state `st0` and role
definition `rdA`. -/
theorem C3_amended_missingRoles_iff_witness :
    st0.freeRoleFlags < 2 ^ 256 ∧ rdA.seniorFlags < 2 ^ 256 ∧
      rdA.juniorFlags < 2 ^ 256 ∧ rdA.roleFlag ≠ 0 ∧
      rdA.roleFlag &&& (rdA.roleFlag - 1) = 0 ∧
      rdA.roleFlag &&& st0.freeRoleFlags ≠ 0 ∧
      ((rdA.roleId <<< 16) % 2 ^ 256) >>> 16 = rdA.roleId ∧
      st0.roleId2Flag rdA.roleId = 0 ∧
      ((_requireValidRoleDef st0 rdA = .error .seniorsMissing ↔
          rdA.seniorFlags &&& st0.freeRoleFlags ≠ 0) ∧
        (rdA.seniorFlags &&& st0.freeRoleFlags = 0 →
          (_requireValidRoleDef st0 rdA = .error .juniorsMissing ↔
            rdA.juniorFlags &&& st0.freeRoleFlags ≠ 0))) :=
  ⟨by decide, by decide, by decide, by decide, by decide, by decide,
    by decide, by decide,
    C3_amended_missingRoles_iff st0 rdA (by decide) (by decide) (by decide)
      (by decide) (by decide) (by decide) (by decide) (by decide)⟩

/-- A nonzero value whose `&&&` with its predecessor vanishes is a power of
two. -/
theorem eq_two_pow_of_and_pred (m : Nat) (h0 : m ≠ 0)
    (hp : m &&& (m - 1) = 0) : m = 2 ^ m.log2 := by
  have hlo : 2 ^ m.log2 ≤ m := Nat.log2_self_le h0
  have hhi : m < 2 ^ (m.log2 + 1) := Nat.lt_log2_self
  by_contra hne
  have hgt : 2 ^ m.log2 < m := lt_of_le_of_ne hlo (Ne.symm hne)
  have hbit1 : (m - 1).testBit m.log2 = true :=
    testBit_of_bounds _ _ (by omega) (by omega)
  have hbit0 : m.testBit m.log2 = true := testBit_of_bounds m m.log2 hlo hhi
  have hand : (m &&& (m - 1)).testBit m.log2 = true := by
    rw [Nat.testBit_land, hbit0, hbit1]; rfl
  rw [hp, Nat.zero_testBit] at hand
  cases hand

/-- A power of two and its predecessor share no bits. -/
theorem two_pow_and_pred (j : Nat) : 2 ^ j &&& (2 ^ j - 1) = 0 := by
  apply Nat.eq_of_testBit_eq
  intro i
  rw [Nat.testBit_land, Nat.zero_testBit, Nat.testBit_two_pow,
    Nat.testBit_two_pow_sub_one]
  by_cases h : j = i
  · subst h
    simp
  · simp [h]

theorem addRoleScan_free (rd : RoleDef) (m : Nat) :
    ∀ (l : List Nat) (acc : ChartState × Nat),
      (addRoleScan rd m l acc).1.freeRoleFlags = acc.1.freeRoleFlags := by
  intro l
  induction l with
  | nil => intro acc; rfl
  | cons i t ih =>
    intro acc
    obtain ⟨st, fp⟩ := acc
    simp only [addRoleScan]
    rw [ih]
    by_cases h1 : rd.seniorFlags &&& st.roleIdx2Flag i ≠ 0 <;>
      by_cases h2 : st.roleFlag2Mask (st.roleIdx2Flag i) &&& rd.seniorFlags ≠ 0 <;>
      simp [h1, h2]

theorem removeRoleScan_free (delRoleFlag : Nat) :
    ∀ (l : List Nat) (acc : ChartState × Nat),
      (removeRoleScan delRoleFlag l acc).1.freeRoleFlags =
        acc.1.freeRoleFlags := by
  intro l
  induction l with
  | nil => intro acc; rfl
  | cons i t ih =>
    intro acc
    obtain ⟨st, ri⟩ := acc
    simp only [removeRoleScan]
    by_cases h0 : st.roleIdx2Flag i = delRoleFlag
    · rw [if_pos h0, ih]
    · rw [if_neg h0, ih]
      by_cases h1 : st.roleFlag2JuniorMask (st.roleIdx2Flag i) &&& delRoleFlag ≠ 0 <;>
        by_cases h2 : st.roleFlag2Mask (st.roleIdx2Flag i) &&& delRoleFlag ≠ 0 <;>
        simp [h1, h2]

/-- Inversion of a successful `_requireValidRoleDef`: the first three
checks passed. -/
theorem validRoleDef_ok (st : ChartState) (rd : RoleDef)
    (h : _requireValidRoleDef st rd = .ok ()) :
    rd.roleFlag ≠ 0 ∧ rd.roleFlag &&& (rd.roleFlag - 1) = 0 ∧
      rd.roleFlag &&& st.freeRoleFlags ≠ 0 := by
  unfold _requireValidRoleDef at h
  by_cases c1 : rd.roleFlag = 0
  · rw [if_pos c1] at h
    cases h
  rw [if_neg c1] at h
  by_cases c2 : rd.roleFlag &&& (rd.roleFlag - 1) = 0
  · rw [if_neg (not_not_intro c2)] at h
    by_cases c3 : rd.roleFlag &&& st.freeRoleFlags = 0
    · rw [if_pos c3] at h
      cases h
    · exact ⟨c1, c2, c3⟩
  · rw [if_pos c2] at h
    cases h

/-- `_requireValidRoleDef` reports `RoleFlagTaken` only when the submitted
flag has no bit in `freeRoleFlags`. -/
theorem validRoleDef_roleFlagTaken (st : ChartState) (rd : RoleDef)
    (hfree : rd.roleFlag &&& st.freeRoleFlags ≠ 0) :
    _requireValidRoleDef st rd ≠ .error .roleFlagTaken := by
  unfold _requireValidRoleDef
  by_cases c1 : rd.roleFlag = 0
  · rw [if_pos c1]
    intro hc
    cases hc
  rw [if_neg c1]
  by_cases c2 : rd.roleFlag &&& (rd.roleFlag - 1) = 0
  · rw [if_neg (not_not_intro c2), if_neg hfree]
    split
    · intro hc; cases hc
    split
    · intro hc; cases hc
    split
    · intro hc; cases hc
    split
    · intro hc; cases hc
    split
    · intro hc; cases hc
    intro hc; cases hc
  · rw [if_pos c2]
    intro hc
    cases hc

/-- `_requireValidRoleDef` reports `RoleFlagTaken` whenever the submitted
flag is a pure power of two that is not free. -/
theorem validRoleDef_taken_of_not_free (st : ChartState) (rd : RoleDef)
    (j : Nat) (hflag : rd.roleFlag = 2 ^ j)
    (hbit : st.freeRoleFlags.testBit j = false) :
    _requireValidRoleDef st rd = .error .roleFlagTaken := by
  unfold _requireValidRoleDef
  rw [hflag]
  rw [if_neg (Nat.two_pow_pos j).ne', if_neg (not_not_intro (two_pow_and_pred j))]
  rw [if_pos (by rw [Nat.two_pow_and, hbit]; simp)]

/-- Inversion of a successful `addRole`: the submitted flag was a free
power of two and is exactly the set of bits removed from
`freeRoleFlags`. -/
theorem addRole_ok_free (env : Env) (st : ChartState) (a : SignedApproval)
    (rd : RoleDef) (st' : ChartState) (h : addRole env st a rd = .ok st') :
    rd.roleFlag ≠ 0 ∧ rd.roleFlag &&& (rd.roleFlag - 1) = 0 ∧
      rd.roleFlag &&& st.freeRoleFlags ≠ 0 ∧
      st'.freeRoleFlags = st.freeRoleFlags ^^^ rd.roleFlag := by
  unfold addRole at h
  split at h
  · cases h
  · split at h
    · cases h
    · rename_i hdef
      split at h
      · cases h
      · simp only [] at h
        split at h
        · cases h
        · obtain ⟨h1, h2, h3⟩ := validRoleDef_ok st rd hdef
          refine ⟨h1, h2, h3, ?_⟩
          have hst := Except.ok.inj h
          rw [← hst]
          show (addRoleScan rd _ (List.range st.numOfActiveRoles)
            (st, st.numOfActiveRoles)).1.freeRoleFlags ^^^ rd.roleFlag =
            st.freeRoleFlags ^^^ rd.roleFlag
          rw [addRoleScan_free]

/-- A successful `grantRole` leaves `freeRoleFlags` unchanged. -/
theorem grantRole_ok_free (env : Env) (st : ChartState) (a : SignedApproval)
    (nominee roleId : Nat) (st' : ChartState)
    (h : grantRole env st a nominee roleId = .ok st') :
    st'.freeRoleFlags = st.freeRoleFlags := by
  unfold grantRole at h
  split at h
  · cases h
  · split at h
    · cases h
    · simp only [] at h
      split at h
      · rw [← Except.ok.inj h]
      · rw [← Except.ok.inj h]

/-- A successful `revokeRole` leaves `freeRoleFlags` unchanged. -/
theorem revokeRole_ok_free (env : Env) (st : ChartState) (a : SignedApproval)
    (nominee roleId : Nat) (st' : ChartState)
    (h : revokeRole env st a nominee roleId = .ok st') :
    st'.freeRoleFlags = st.freeRoleFlags := by
  unfold revokeRole at h
  split at h
  · cases h
  · split at h
    · cases h
    · simp only [] at h
      split at h
      · split at h
        · cases h
        · rw [← Except.ok.inj h]
      · rw [← Except.ok.inj h]

/-- A successful `removeRole` leaves `freeRoleFlags` unchanged: the removed
flag is not returned to the free pool. -/
theorem removeRole_ok_free (env : Env) (st : ChartState) (a : SignedApproval)
    (roleId : Nat) (st' : ChartState)
    (h : removeRole env st a roleId = .ok st') :
    st'.freeRoleFlags = st.freeRoleFlags := by
  unfold removeRole at h
  split at h
  · cases h
  · simp only [] at h
    split at h
    · cases h
    · split at h
      · cases h
      · rw [← Except.ok.inj h]
        show (removeRoleScan _ (List.range st.numOfActiveRoles)
          (st, 0)).1.freeRoleFlags = st.freeRoleFlags
        rw [removeRoleScan_free]

/-- One engine operation never sets a bit of `freeRoleFlags` that was
cleared before. -/
theorem applyOp_free_testBit (env : Env) (st : ChartState) (op : Op)
    (j : Nat) (h : st.freeRoleFlags.testBit j = false) :
    (applyOp env st op).freeRoleFlags.testBit j = false := by
  cases op with
  | add a rd =>
    simp only [applyOp]
    cases hres : addRole env st a rd with
    | error e => exact h
    | ok st1 =>
      obtain ⟨h1, h2, h3, h4⟩ := addRole_ok_free env st a rd st1 hres
      have hflag : rd.roleFlag = 2 ^ rd.roleFlag.log2 :=
        eq_two_pow_of_and_pred rd.roleFlag h1 h2
      have hkbit : st.freeRoleFlags.testBit rd.roleFlag.log2 = true := by
        apply testBit_of_and_two_pow
        rw [← hflag]
        exact h3
      have hkj : rd.roleFlag.log2 ≠ j := by
        intro he
        rw [he, h] at hkbit
        cases hkbit
      rw [h4, Nat.testBit_xor, h, hflag, Nat.testBit_two_pow_of_ne hkj]
      rfl
  | remove a roleId =>
    simp only [applyOp]
    cases hres : removeRole env st a roleId with
    | error e => exact h
    | ok st1 => rw [removeRole_ok_free env st a roleId st1 hres]; exact h
  | grant a nominee roleId =>
    simp only [applyOp]
    cases hres : grantRole env st a nominee roleId with
    | error e => exact h
    | ok st1 => rw [grantRole_ok_free env st a nominee roleId st1 hres]; exact h
  | revoke a nominee roleId =>
    simp only [applyOp]
    cases hres : revokeRole env st a nominee roleId with
    | error e => exact h
    | ok st1 => rw [revokeRole_ok_free env st a nominee roleId st1 hres]; exact h

/-- Over a whole operation sequence, a cleared free bit stays cleared. -/
theorem runOps_free_testBit (env : Env) (ops : List Op) :
    ∀ st j, st.freeRoleFlags.testBit j = false →
      (runOps env st ops).freeRoleFlags.testBit j = false := by
  induction ops with
  | nil => intro st j h; exact h
  | cons op rest ih =>
    intro st j h
    exact ih (applyOp env st op) j (applyOp_free_testBit env st op j h)

/-- C5: across every operation sequence, a flag bit that is active (and
disjoint from the free pool) is never again set in `freeRoleFlags`:
`removeRole` leaves `freeRoleFlags` unchanged, every later `addRole` whose
`roleFlag` equals that bit fails with `RoleFlagTaken`, and an `addRole`
whose flag still has a free bit gets past that check (it can never produce
the `RoleFlagTaken` error). -/
theorem C5_flag_never_freed (env : Env) (st : ChartState) (j : Nat)
    (ops : List Op)
    (hact : st.activeRoleFlags.testBit j = true)
    (hdisj : st.activeRoleFlags &&& st.freeRoleFlags = 0) :
    (∀ a roleId st', removeRole env st a roleId = .ok st' →
      st'.freeRoleFlags = st.freeRoleFlags) ∧
    (runOps env st ops).freeRoleFlags.testBit j = false ∧
    (∀ a rd, a.selfSignRequired = false → rd.roleFlag = 2 ^ j →
      addRole env (runOps env st ops) a rd = .error .roleFlagTaken) ∧
    (∀ rd, rd.roleFlag &&& (runOps env st ops).freeRoleFlags ≠ 0 →
      _requireValidRoleDef (runOps env st ops) rd ≠ .error .roleFlagTaken) := by
  have hfree0 : st.freeRoleFlags.testBit j = false := by
    have hz := congrArg (fun y => y.testBit j) hdisj
    simp only [Nat.testBit_land, Nat.zero_testBit, hact, Bool.true_and] at hz
    exact hz
  have hfree : (runOps env st ops).freeRoleFlags.testBit j = false :=
    runOps_free_testBit env ops st j hfree0
  refine ⟨fun a roleId st' h => removeRole_ok_free env st a roleId st' h,
    hfree, ?_, ?_⟩
  · intro a rd hss hflag
    unfold addRole
    rw [if_neg (by rw [hss]; exact Bool.false_ne_true)]
    rw [validRoleDef_taken_of_not_free (runOps env st ops) rd j hflag hfree]
  · intro rd hfree1
    exact validRoleDef_roleFlagTaken (runOps env st ops) rd hfree1

set_option maxRecDepth 10000 in
/-- Witness for C5 at the concrete chart `st0` (root flag at bit 0), the
empty operation sequence, and the root flag resubmitted as a new role. -/
theorem C5_flag_never_freed_witness :
    st0.activeRoleFlags.testBit 0 = true ∧
      st0.activeRoleFlags &&& st0.freeRoleFlags = 0 ∧
      (runOps env0 st0 []).freeRoleFlags.testBit 0 = false ∧
      addRole env0 (runOps env0 st0 []) approval0
          { roleId := 16, roleFlag := 2 ^ 0, seniorFlags := 0,
            juniorFlags := 0, ruleHashes := [] } =
        .error .roleFlagTaken :=
  ⟨by decide, by decide,
    (C5_flag_never_freed env0 st0 0 [] (by decide) (by decide)).2.1,
    (C5_flag_never_freed env0 st0 0 [] (by decide) (by decide)).2.2.1
      approval0
      { roleId := 16, roleFlag := 2 ^ 0, seniorFlags := 0, juniorFlags := 0,
        ruleHashes := [] }
      (by decide) (by decide)⟩

set_option maxRecDepth 100000 in
/-- C1 fails on the code: `addRole` and `removeRole` validate the admin
approval through `_requireValidAdminRequest`, which performs neither the
base-block freshness check nor the `MAX_NUM_SIGNERS` bound (both live in
the `onlyValidApprovals` modifier, applied only to `grantRole` and
`revokeRole`).  Concretely, an approval with a stale base block and 101
signatures is accepted by both admin operations instead of reverting with
`StaleBaseBlock` or `TooManySigners`. -/
theorem C1_admin_approval_skips_freshness_and_size :
    _isValidBaseBlock env0 approvalBig.baseBlockHash = false ∧
      approvalBig.sig.length = 101 ∧ MAX_NUM_SIGNERS = 100 ∧
      (addRole env0 st0 approvalBig rdA).isOk = true ∧
      (match addRole env0 st0 approvalBig rdA with
        | .ok st1 => (removeRole env0 st1 approvalBig 12).isOk
        | .error _ => false) = true := by
  decide

set_option maxRecDepth 100000 in
/-- C2 fails on the code: starting from the one-role chart `st0`, adding
`A` and `B` below `root` gives the reverse-topological index
`[A, B, root]`; the accepted definition of `R` (senior `A`, junior `B`) is
then inserted at the index of its first parent `A`, in front of its own
junior `B`, so the post-state index `[R, A, B, root]` violates the
reverse-topological invariant that the claim says is preserved. -/
theorem C2_insertion_breaks_reverse_topological_order :
    (addRole env0 st0 approval0 rdA).isOk = true ∧
      (addRole env0 (applyOp env0 st0 (.add approval0 rdA)) approval0
        rdB).isOk = true ∧
      RevTopological stPre ∧
      (addRole env0 stPre approval0 rdR).isOk = true ∧
      ¬ RevTopological stABR ∧
      stABR.roleIdx2Flag 0 = rdR.roleFlag ∧
      stABR.roleIdx2Flag 2 = rdB.roleFlag ∧
      stABR.roleFlag2Mask rdR.roleFlag &&& rdB.roleFlag ≠ 0 := by
  decide

set_option maxRecDepth 100000 in
/-- C6 fails on the code: in the reachable state `stABR` (whose role index
`[R, A, B, root]` is no longer reverse-topological, see C2), adding `C`
below `B` and removing it again rebuilds the structure mask of `R` from the
stale mask of `B` before `B` itself is rebuilt, so the removed flag of `C`
survives in `structure_mask(R)` and the mask-consistency equation fails for
the active role `R`. -/
theorem C6_mask_consistency_broken_by_remove :
    (addRole env0 stABR approval0 rdC).isOk = true ∧
      (removeRole env0 (applyOp env0 stABR (.add approval0 rdC)) approval0
        15).isOk = true ∧
      stFinal.activeRoleFlags &&& rdR.roleFlag = rdR.roleFlag ∧
      stFinal.roleFlag2JuniorMask rdR.roleFlag = rdB.roleFlag ∧
      stFinal.roleFlag2Mask rdR.roleFlag ≠
        rdR.roleFlag |||
          _buildStructureMask stFinal.roleFlag2Mask
            (stFinal.roleFlag2JuniorMask rdR.roleFlag) := by
  decide
